import Mathlib

/-!
A shallow embedding of the costday expense-tracking backend
(`src/costday/main.py`, `src/costday/models.py`,
`src/costday/apiserver/crud.py`, `src/costday/apiserver/schemas.py`).

Table rows are Lean structures, the SQLite database is a `DB` structure of
row lists plus autoincrement counters (SQLAlchemy primary-key columns), and
each crud / endpoint function is a Lean function on `DB`.  A raised Python
exception is an `Except Failure` error value; functions whose Python bodies
cannot raise stay total.

The repository's `auth.py` (password hashing, token creation, `SECRET_KEY`)
and the third-party `jose.jwt` codec are imported by the sources but are not
under `src/`; those pieces are modelled from the spec where their doc
comments say so.
-/

namespace Costday

/-- Wall-clock timestamps (`datetime.now()`, JWT `exp`) as naturals. -/
abbrev Time := Nat

/-- The failure outcomes the embedded code can produce: HTTP 400/401 from
`HTTPException`, and the Python exceptions `TypeError`, `AttributeError`
and `sqlalchemy.exc.IntegrityError`. -/
inductive Failure
  | http400
  | http401
  | typeError
  | attributeError
  | integrityError
  deriving DecidableEq

/-! ## Credential store (spec §4.1; `auth.py` is not under `src/`) -/

/-- A bcrypt-class hash string: the salt baked into it plus a digest.
Symbolically the digest is the (salt, password) pair: the model only ever
compares digests, never inverts them. -/
structure HashStr where
  salt : Nat
  digest : Nat × String
  deriving DecidableEq

/-- Modelled from the spec: `auth.get_password_hash` (file `auth.py` missing
from `src/`).  Per §4.1, a deterministic-format adaptive hash with an
internally generated random salt baked into the resulting hash string; the
salt is passed explicitly here in place of the internal RNG draw. -/
def get_password_hash (password : String) (salt : Nat) : HashStr :=
  ⟨salt, (salt, password)⟩

/-- Modelled from the spec: `auth.verify_password` (file `auth.py` missing
from `src/`).  Per §4.1, returns true iff the password matches the hash
parameters; it is a total boolean computation, never raising on a mere
mismatch. -/
def verify_password (password : String) (hashed : HashStr) : Bool :=
  decide (hashed.digest = (hashed.salt, password))

/-! ## Token service (spec §4.2; `auth.py` and `jose.jwt` are not under `src/`) -/

/-- The decoded JWT claims used by the code: the `sub` claim, which
`payload.get("sub")` may find absent, and the absolute expiry `exp`. -/
structure Payload where
  sub : Option String
  deriving DecidableEq

/-- A symbolic HMAC tag over the signed claims: verification succeeds
exactly when the verifier recomputes the same (secret, claims) tuple. -/
def signTag (secret : Nat) (sub : Option String) (exp : Time) :
    Nat × Option String × Time :=
  (secret, sub, exp)

/-- A bearer token on the wire: either not a structurally valid JWT at all,
or a signed claim set carrying its signature tag. -/
inductive WireToken
  | malformed (raw : String)
  | signed (sub : Option String) (exp : Time) (sig : Nat × Option String × Time)
  deriving DecidableEq

/-- Modelled from the spec: `auth.create_access_token` (file `auth.py`
missing from `src/`).  Per §4.2 `issue`, produces a signed self-contained
token encoding the subject and the absolute expiry `now + ttl` under the
process-wide symmetric secret. -/
def create_access_token (sub : String) (ttl : Nat) (now : Time) (secret : Nat) :
    WireToken :=
  .signed (some sub) (now + ttl) (signTag secret (some sub) (now + ttl))

/-- Modelled from the spec: the third-party `jose.jwt.decode` called at
`crud.py:46`, per the §4.2 `validate` contract — fails if the signature
does not verify, if the token is structurally malformed, or if the current
time is past the encoded expiry; on success returns the claim set. -/
def jwtDecode (token : WireToken) (secret : Nat) (now : Time) :
    Except Failure Payload :=
  match token with
  | .malformed _ => .error .http401
  | .signed sub exp sig =>
    if sig ≠ signTag secret sub exp then .error .http401
    else if exp < now then .error .http401
    else .ok ⟨sub⟩

/-! ## Data model (`models.py`, `schemas.py`) -/

/-- A row of table `users` (`models.py:21`): surrogate integer primary key,
`email` and `username` each carrying a UNIQUE constraint, and the stored
password hash. -/
structure UserRow where
  id : Nat
  email : String
  username : String
  hashed_password : HashStr
  deriving DecidableEq

/-- A row of table `books` (`models.py:32`).  The `members` relationship is
stored in the join table, not in the row. -/
structure BookRow where
  id : Nat
  name : String
  deriving DecidableEq

/-- A row of table `categories` (`models.py:58`): optional self-referential
`parent_id` (no foreign key declared on it), icon and bilingual names. -/
structure CategoryRow where
  id : Nat
  parent_id : Option Nat
  icon : Nat
  cn_name : String
  en_name : String
  deriving DecidableEq

/-- A row of table `records` (`models.py:43`): the monetary `amount`
(a stored numeric value, only ever copied and compared here, so modelled
exactly as `Rat`), optional `note`, foreign keys, the expense/income flag,
and provenance `add_by` / `add_at`. -/
structure RecordRow where
  id : Nat
  amount : Rat
  note : Option String
  category_id : Nat
  book_id : Nat
  type_ : Nat
  add_by : Nat
  add_at : Time
  deriving DecidableEq

/-- `schemas.UserCreate`: the client-supplied part of a user. -/
structure UserCreate where
  email : String
  username : String
  password : String
  deriving DecidableEq

/-- `schemas.RecordCreate`: the client-supplied part of a record
(`type_` defaults to 1 = expense, `note` to null). -/
structure RecordCreate where
  amount : Rat
  note : Option String := none
  category_id : Nat
  book_id : Nat
  type_ : Nat := 1
  deriving DecidableEq

/-- `schemas.CategoryCreate`. -/
structure CategoryCreate where
  parent_id : Option Nat := none
  icon : Nat
  cn_name : String
  en_name : String
  deriving DecidableEq

/-- `schemas.BookCreate` (the `members` list is only ever seeded empty and
is not a column of `books`; it is omitted from the embedding). -/
structure BookCreate where
  name : String
  deriving DecidableEq

/-- `schemas.UserBookCreate`: one membership pair. -/
structure UserBookCreate where
  user_id : Nat
  book_id : Nat
  deriving DecidableEq

/-- The whole relational store: one list per table in insertion order
(SQLite default ordering is by integer primary key, which autoincrement
insertion order realizes), the `user_book` join table of composite-primary-
key pairs (`models.py:13`), and the autoincrement counter of each
integer-primary-key table. -/
structure DB where
  users : List UserRow
  books : List BookRow
  categories : List CategoryRow
  records : List RecordRow
  user_book : List (Nat × Nat)
  next_user_id : Nat
  next_book_id : Nat
  next_category_id : Nat
  next_record_id : Nat
  deriving DecidableEq

/-- The store a fresh deployment starts from: empty tables, autoincrement
counters at 1. -/
def initDB : DB := ⟨[], [], [], [], [], 1, 1, 1, 1⟩

end Costday

namespace Costday.Crud

/-- `crud.get_user`: first row of `users` with the given id. -/
def get_user (db : DB) (user_id : Nat) : Option UserRow :=
  db.users.find? (fun u => u.id == user_id)

/-- `crud.get_user_by_email`. -/
def get_user_by_email (db : DB) (email : String) : Option UserRow :=
  db.users.find? (fun u => u.email == email)

/-- `crud.get_user_by_username`. -/
def get_user_by_username (db : DB) (username : String) : Option UserRow :=
  db.users.find? (fun u => u.username == username)

/-- `crud.get_users`: offset/limit pagination over `users`. -/
def get_users (db : DB) (skip limit : Nat) : List UserRow :=
  (db.users.drop skip).take limit

/-- `crud.authenticate_user`: username lookup then password verification;
the Python `False` outcomes are `none`. -/
def authenticate_user (db : DB) (username password : String) : Option UserRow :=
  match get_user_by_username db username with
  | none => none
  | some user =>
    if verify_password password user.hashed_password then some user else none

/-- `crud.get_current_user` (`crud.py:39`): decode the bearer token (any
`JWTError` becomes the 401 `credentials_exception`), require a `sub` claim,
then look the subject up by username, 401 again if that user is gone. -/
def get_current_user (db : DB) (token : WireToken) (secret : Nat) (now : Time) :
    Except Failure UserRow :=
  match jwtDecode token secret now with
  | .error _ => .error .http401
  | .ok payload =>
    match payload.sub with
    | none => .error .http401
    | some username =>
      match get_user_by_username db username with
      | none => .error .http401
      | some user => .ok user

/-- `crud.create_user`: builds the row with the hashed password and commits.
The commit enforces the UNIQUE constraints on `users.email` and
`users.username` declared in `models.py:25-26`: a duplicate of either
raises `IntegrityError` and persists nothing. -/
def create_user (db : DB) (user : UserCreate) (salt : Nat) :
    DB × Except Failure UserRow :=
  if ∃ u ∈ db.users, u.email = user.email ∨ u.username = user.username then
    (db, .error .integrityError)
  else
    let row : UserRow :=
      ⟨db.next_user_id, user.email, user.username,
        get_password_hash user.password salt⟩
    ({ db with
        users := db.users ++ [row],
        next_user_id := db.next_user_id + 1 },
      .ok row)

/-- `crud.delete_user`: delete the row if present, else do nothing.  Rows
are keyed by the primary key `id`, so deleting the found row removes every
row with that id; SQLAlchemy also deletes the member's rows from the
`user_book` secondary table. -/
def delete_user (db : DB) (user_id : Nat) : DB :=
  match get_user db user_id with
  | none => db
  | some _ =>
    { db with
        users := db.users.filter (fun u => u.id != user_id),
        user_book := db.user_book.filter (fun p => p.1 != user_id) }

/-- `crud.update_user` (`crud.py:75`): a missing id falls through and
returns `None` with no write; a found id calls `.update()` on the ORM
instance, which has no such method, so `AttributeError` is raised before
the commit and the store is unchanged either way. -/
def update_user (db : DB) (user_id : Nat) (_user : UserCreate) :
    DB × Except Failure (Option UserRow) :=
  match get_user db user_id with
  | none => (db, .ok none)
  | some _ => (db, .error .attributeError)

/-- `crud.get_record`. -/
def get_record (db : DB) (record_id : Nat) : Option RecordRow :=
  db.records.find? (fun r => r.id == record_id)

/-- `crud.get_records` (`crud.py:87`): rows of `records` filtered to the
given book, then offset/limit pagination. -/
def get_records (db : DB) (book_id skip limit : Nat) : List RecordRow :=
  (((db.records.filter (fun r => r.book_id == book_id)).drop skip).take limit)

/-- `crud.create_user_record` (`crud.py:91`): builds the row from the
client fields plus server-assigned `add_by = user_id` and
`add_at = datetime.now()`, commits, refreshes and returns it.  SQLite does
not enforce the foreign keys by default, so the insert is total. -/
def create_user_record (db : DB) (record : RecordCreate) (user_id : Nat)
    (now : Time) : DB × RecordRow :=
  let row : RecordRow :=
    ⟨db.next_record_id, record.amount, record.note, record.category_id,
      record.book_id, record.type_, user_id, now⟩
  ({ db with
      records := db.records ++ [row],
      next_record_id := db.next_record_id + 1 },
    row)

/-- `crud.delete_record`: delete if present, else do nothing. -/
def delete_record (db : DB) (record_id : Nat) : DB :=
  match get_record db record_id with
  | none => db
  | some _ =>
    { db with records := db.records.filter (fun r => r.id != record_id) }

/-- `crud.update_record` (`crud.py:106`): same shape as `update_user` —
missing id returns `None` without writing, found id raises
`AttributeError` before the commit. -/
def update_record (db : DB) (record_id : Nat) (_record : RecordCreate) :
    DB × Except Failure (Option RecordRow) :=
  match get_record db record_id with
  | none => (db, .ok none)
  | some _ => (db, .error .attributeError)

/-- `crud.get_categories`. -/
def get_categories (db : DB) (skip limit : Nat) : List CategoryRow :=
  (db.categories.drop skip).take limit

/-- `crud.get_category`. -/
def get_category (db : DB) (category_id : Nat) : Option CategoryRow :=
  db.categories.find? (fun c => c.id == category_id)

/-- `crud.create_category`: unconditional insert with a fresh id. -/
def create_category (db : DB) (category : CategoryCreate) :
    DB × CategoryRow :=
  let row : CategoryRow :=
    ⟨db.next_category_id, category.parent_id, category.icon,
      category.cn_name, category.en_name⟩
  ({ db with
      categories := db.categories ++ [row],
      next_category_id := db.next_category_id + 1 },
    row)

/-- `crud.delete_category`.  Divergence note: SQLAlchemy's default cascade
additionally nulls `records.category_id` on the deleted category's records
at flush; that de-association is not modelled here (`RecordRow.category_id`
stays `Nat`), and no theorem below reads the records table after a category
delete. -/
def delete_category (db : DB) (category_id : Nat) : DB :=
  match get_category db category_id with
  | none => db
  | some _ =>
    { db with categories := db.categories.filter (fun c => c.id != category_id) }

/-- `crud.update_category`: same shape as `update_user`. -/
def update_category (db : DB) (category_id : Nat) (_category : CategoryCreate) :
    DB × Except Failure (Option CategoryRow) :=
  match get_category db category_id with
  | none => (db, .ok none)
  | some _ => (db, .error .attributeError)

/-- `crud.get_books`. -/
def get_books (db : DB) (skip limit : Nat) : List BookRow :=
  (db.books.drop skip).take limit

/-- `crud.get_book`. -/
def get_book (db : DB) (book_id : Nat) : Option BookRow :=
  db.books.find? (fun b => b.id == book_id)

/-- `crud.create_book`: unconditional insert with a fresh id.  Divergence
note: the schema's `members` field is dropped from the embedding — in the
source a non-empty `members` list (pydantic `User` objects fed to the ORM
relationship) raises before commit instead of creating the book, and only
the empty list is ever passed (seeding, `main.create_book` callers).  The
model therefore only adds successful-creation transitions, which cannot
ease the invariant theorems it feeds. -/
def create_book (db : DB) (book : BookCreate) : DB × BookRow :=
  let row : BookRow := ⟨db.next_book_id, book.name⟩
  ({ db with
      books := db.books ++ [row],
      next_book_id := db.next_book_id + 1 },
    row)

/-- `crud.update_book`: same shape as `update_user`. -/
def update_book (db : DB) (book_id : Nat) (_book : BookCreate) :
    DB × Except Failure (Option BookRow) :=
  match get_book db book_id with
  | none => (db, .ok none)
  | some _ => (db, .error .attributeError)

/-- `crud.delete_book`: delete if present; SQLAlchemy also deletes the
book's rows from the `user_book` secondary table.  Divergence note: the
default cascade additionally nulls `records.book_id` on the book's records
at flush; that de-association is not modelled here, and no theorem below
reads the records table after a book delete. -/
def delete_book (db : DB) (book_id : Nat) : DB :=
  match get_book db book_id with
  | none => db
  | some _ =>
    { db with
        books := db.books.filter (fun b => b.id != book_id),
        user_book := db.user_book.filter (fun p => p.2 != book_id) }

/-- `crud.create_user_book` (`crud.py:176`): a raw insert into `user_book`,
whose composite primary key (user_id, book_id) makes a duplicate pair an
`IntegrityError` at commit; on success the schema object is echoed back. -/
def create_user_book (db : DB) (ub : UserBookCreate) :
    DB × Except Failure UserBookCreate :=
  if (ub.user_id, ub.book_id) ∈ db.user_book then
    (db, .error .integrityError)
  else
    ({ db with user_book := db.user_book ++ [(ub.user_id, ub.book_id)] },
      .ok ub)

end Costday.Crud

namespace Costday.Main

/-- `main.login_for_access_token` (`main.py:55`): authenticate, 401 on
failure, else issue a token for the user's username with the configured
ttl under the process secret. -/
def login_for_access_token (db : DB) (username password : String)
    (now : Time) (ttl secret : Nat) : Except Failure WireToken :=
  match Crud.authenticate_user db username password with
  | none => .error .http401
  | some user => .ok (create_access_token user.username ttl now secret)

/-- `main.create_user` (`main.py:106`): pre-check the email, 400 if already
registered, else delegate to `crud.create_user`. -/
def create_user (db : DB) (user : UserCreate) (salt : Nat) :
    DB × Except Failure UserRow :=
  match Crud.get_user_by_email db user.email with
  | some _ => (db, .error .http400)
  | none => Crud.create_user db user salt

end Costday.Main

namespace Costday

/-- One store mutation: each constructor is one state-changing operation the
service exposes (`crud.py`; the crud-level `create_user` also covers the
`main.create_user` endpoint, which either raises 400 leaving the store
unchanged or delegates to it, and covers the startup seeding). -/
inductive Step : DB → DB → Prop
  | createUser (db : DB) (u : UserCreate) (salt : Nat) :
      Step db (Crud.create_user db u salt).1
  | deleteUser (db : DB) (uid : Nat) : Step db (Crud.delete_user db uid)
  | updateUser (db : DB) (uid : Nat) (u : UserCreate) :
      Step db (Crud.update_user db uid u).1
  | createBook (db : DB) (b : BookCreate) : Step db (Crud.create_book db b).1
  | deleteBook (db : DB) (bid : Nat) : Step db (Crud.delete_book db bid)
  | updateBook (db : DB) (bid : Nat) (b : BookCreate) :
      Step db (Crud.update_book db bid b).1
  | createCategory (db : DB) (c : CategoryCreate) :
      Step db (Crud.create_category db c).1
  | deleteCategory (db : DB) (cid : Nat) : Step db (Crud.delete_category db cid)
  | updateCategory (db : DB) (cid : Nat) (c : CategoryCreate) :
      Step db (Crud.update_category db cid c).1
  | createRecord (db : DB) (r : RecordCreate) (uid : Nat) (now : Time) :
      Step db (Crud.create_user_record db r uid now).1
  | deleteRecord (db : DB) (rid : Nat) : Step db (Crud.delete_record db rid)
  | updateRecord (db : DB) (rid : Nat) (r : RecordCreate) :
      Step db (Crud.update_record db rid r).1
  | createUserBook (db : DB) (ub : UserBookCreate) :
      Step db (Crud.create_user_book db ub).1

/-- The store states reachable from a fresh deployment by the service's
operations. -/
inductive Reachable : DB → Prop
  | init : Reachable initDB
  | step {db db' : DB} : Reachable db → Step db db' → Reachable db'

/-- The `models.py` UNIQUE constraints on `users`: no two rows share an
email and no two rows share a username. -/
def UsersUnique (db : DB) : Prop :=
  db.users.Pairwise (fun a b => a.email ≠ b.email ∧ a.username ≠ b.username)

/-- The `user_book` composite primary key: no duplicate membership pair. -/
def MembershipUnique (db : DB) : Prop :=
  db.user_book.Nodup

/-- A populated store — two rows in each table — used to exercise the
deletion of ids that exist. -/
def deleteWitnessDB : DB :=
  ⟨[⟨1, "a@x", "al", ⟨0, (0, "pw")⟩⟩, ⟨2, "b@x", "bo", ⟨0, (0, "pw")⟩⟩],
    [⟨1, "default"⟩, ⟨2, "trip"⟩],
    [⟨1, none, 1, "gouwu", "Shop"⟩, ⟨2, none, 5, "yingyong", "App"⟩],
    [⟨1, 100, none, 1, 1, 1, 1, 5⟩, ⟨2, 20, none, 1, 1, 1, 1, 6⟩],
    [(1, 1), (2, 1)], 3, 3, 3, 3⟩

theorem update_user_fst (db : DB) (uid : Nat) (u : UserCreate) :
    (Crud.update_user db uid u).1 = db := by
  unfold Crud.update_user
  cases Crud.get_user db uid <;> rfl

theorem update_book_fst (db : DB) (bid : Nat) (b : BookCreate) :
    (Crud.update_book db bid b).1 = db := by
  unfold Crud.update_book
  cases Crud.get_book db bid <;> rfl

theorem update_category_fst (db : DB) (cid : Nat) (c : CategoryCreate) :
    (Crud.update_category db cid c).1 = db := by
  unfold Crud.update_category
  cases Crud.get_category db cid <;> rfl

theorem update_record_fst (db : DB) (rid : Nat) (r : RecordCreate) :
    (Crud.update_record db rid r).1 = db := by
  unfold Crud.update_record
  cases Crud.get_record db rid <;> rfl

/-- Every single operation preserves the two uniqueness constraints. -/
theorem step_preserves_unique {db db' : DB} (h : Step db db')
    (hu : UsersUnique db) (hm : MembershipUnique db) :
    UsersUnique db' ∧ MembershipUnique db' := by
  cases h with
  | createUser u salt =>
    unfold Crud.create_user
    by_cases hdup : ∃ x ∈ db.users, x.email = u.email ∨ x.username = u.username
    · simp only [if_pos hdup]
      exact ⟨hu, hm⟩
    · simp only [if_neg hdup]
      refine ⟨?_, hm⟩
      unfold UsersUnique at hu ⊢
      simp only [List.pairwise_append, List.pairwise_singleton,
        List.mem_singleton]
      push_neg at hdup
      refine ⟨hu, by simp, ?_⟩
      intro a ha b hb
      subst hb
      have := hdup a ha
      exact ⟨fun he => this.1 he, fun hn => this.2 hn⟩
  | deleteUser uid =>
    unfold Crud.delete_user
    cases hfind : Crud.get_user db uid with
    | none => exact ⟨hu, hm⟩
    | some _ =>
      refine ⟨?_, ?_⟩
      · exact List.Pairwise.sublist (List.filter_sublist _) hu
      · exact List.Nodup.sublist (List.filter_sublist _) hm
  | updateUser uid u =>
    rw [update_user_fst]; exact ⟨hu, hm⟩
  | createBook b => exact ⟨hu, hm⟩
  | deleteBook bid =>
    unfold Crud.delete_book
    cases hfind : Crud.get_book db bid with
    | none => exact ⟨hu, hm⟩
    | some _ =>
      exact ⟨hu, List.Nodup.sublist (List.filter_sublist _) hm⟩
  | updateBook bid b =>
    rw [update_book_fst]; exact ⟨hu, hm⟩
  | createCategory c => exact ⟨hu, hm⟩
  | deleteCategory cid =>
    unfold Crud.delete_category
    cases hfind : Crud.get_category db cid with
    | none => exact ⟨hu, hm⟩
    | some _ => exact ⟨hu, hm⟩
  | updateCategory cid c =>
    rw [update_category_fst]; exact ⟨hu, hm⟩
  | createRecord r uid now => exact ⟨hu, hm⟩
  | deleteRecord rid =>
    unfold Crud.delete_record
    cases hfind : Crud.get_record db rid with
    | none => exact ⟨hu, hm⟩
    | some _ => exact ⟨hu, hm⟩
  | updateRecord rid r =>
    rw [update_record_fst]; exact ⟨hu, hm⟩
  | createUserBook ub =>
    unfold Crud.create_user_book
    by_cases hmem : (ub.user_id, ub.book_id) ∈ db.user_book
    · simp only [if_pos hmem]
      exact ⟨hu, hm⟩
    · simp only [if_neg hmem]
      refine ⟨hu, ?_⟩
      unfold MembershipUnique at hm ⊢
      simp only [List.nodup_append, List.nodup_singleton, true_and]
      exact ⟨hm, by simpa [List.disjoint_singleton] using hmem⟩

/-- The uniqueness constraints hold in every reachable store state. -/
theorem reachable_unique {db : DB} (h : Reachable db) :
    UsersUnique db ∧ MembershipUnique db := by
  induction h with
  | init => exact ⟨List.Pairwise.nil, List.nodup_nil⟩
  | step _ hs ih => exact step_preserves_unique hs ih.1 ih.2

/-- Searching for key `i` in a list from which every key-`i` element was
filtered out finds nothing. -/
theorem find_filter_bne_eq_none {α : Type} (l : List α) (f : α → Nat) (i : Nat) :
    (l.filter (fun x => f x != i)).find? (fun x => f x == i) = none := by
  rw [List.find?_eq_none]
  intro x hx
  have hmem := List.mem_filter.mp hx
  simpa using hmem.2

/-- Filtering away key `i` from a list in which a key-`i` search already
finds nothing leaves the list unchanged. -/
theorem filter_bne_of_find_none {α : Type} (l : List α) (f : α → Nat) (i : Nat)
    (h : l.find? (fun x => f x == i) = none) :
    l.filter (fun x => f x != i) = l := by
  rw [List.filter_eq_self]
  intro a ha
  have hne := List.find?_eq_none.mp h a ha
  simpa using hne

/-- A first-match search over `l ++ [x]` returns `x` when nothing in `l`
matches and `x` does. -/
theorem find_append_singleton {α : Type} (l : List α) (x : α) (p : α → Bool)
    (hl : ∀ a ∈ l, ¬ p a = true) (hx : p x = true) :
    (l ++ [x]).find? p = some x := by
  induction l with
  | nil => simp [List.find?_cons, hx]
  | cons a t ih =>
    have ha : p a = false :=
      Bool.eq_false_iff.mpr (hl a (List.mem_cons_self a t))
    rw [List.cons_append, List.find?_cons_of_neg _ (by simp [ha])]
    exact ih fun b hb => hl b (List.mem_cons_of_mem a hb)

end Costday

namespace Costday

/-- Claim C2: verifying a password against its own hash returns true,
verifying it against the hash of the password with `"x"` appended returns
false, and in general verification of a freshly hashed password succeeds
exactly for the hashed password; `verify_password` is a total boolean
computation, so a mere mismatch never raises. -/
theorem verify_password_round_trip (p : String) (salt : Nat) :
    verify_password p (get_password_hash p salt) = true ∧
    verify_password p (get_password_hash (p ++ "x") salt) = false ∧
    ∀ q, verify_password p (get_password_hash q salt) = true ↔ q = p := by
  have hiff : ∀ q, verify_password p (get_password_hash q salt) = true ↔ q = p := by
    intro q
    simp [verify_password, get_password_hash]
  refine ⟨(hiff p).mpr rfl, ?_, hiff⟩
  rw [Bool.eq_false_iff]
  intro hx
  have hxp := (hiff (p ++ "x")).mp hx
  have hlen := congrArg String.length hxp
  simp [String.length_append] at hlen
  exact absurd hlen (by decide)

/-- Claim C7: updating a record or a user under an id that matches no
stored row writes nothing — the store comes back unchanged — and returns
the explicit not-found signal (the Python `None`, embedded as
`.ok none`). -/
theorem update_missing_id_noop (db : DB) (rid uid : Nat)
    (rec : RecordCreate) (u : UserCreate)
    (hr : Crud.get_record db rid = none) (hu : Crud.get_user db uid = none) :
    Crud.update_record db rid rec = (db, .ok none) ∧
    Crud.update_user db uid u = (db, .ok none) := by
  unfold Crud.update_record Crud.update_user
  rw [hr, hu]
  exact ⟨rfl, rfl⟩

/-- Witness for claim C7 at a concrete store: the fresh deployment holds no
record and no user with id 1. -/
theorem update_missing_id_noop_witness :
    Crud.update_record initDB 1 ⟨100, none, 1, 1, 1⟩ = (initDB, .ok none) ∧
    Crud.update_user initDB 1 ⟨"a@x", "al", "pw"⟩ = (initDB, .ok none) :=
  update_missing_id_noop initDB 1 1 ⟨100, none, 1, 1, 1⟩ ⟨"a@x", "al", "pw"⟩ rfl rfl

/-- Claim C8: for each of the four entity types, deleting an id removes
exactly the rows carrying that id and keeps every other row (so deleting
an existing id removes it), after a delete the id is no longer found,
deleting an absent id is a non-error no-op leaving the store exactly as it
was, and deleting the same id twice ends in the same state as deleting it
once. -/
theorem delete_idempotent (db : DB) (i : Nat) :
    ((Crud.delete_record db i).records = db.records.filter (fun x => x.id != i) ∧
      Crud.get_record (Crud.delete_record db i) i = none ∧
      (Crud.get_record db i = none → Crud.delete_record db i = db) ∧
      Crud.delete_record (Crud.delete_record db i) i = Crud.delete_record db i) ∧
    ((Crud.delete_user db i).users = db.users.filter (fun x => x.id != i) ∧
      Crud.get_user (Crud.delete_user db i) i = none ∧
      (Crud.get_user db i = none → Crud.delete_user db i = db) ∧
      Crud.delete_user (Crud.delete_user db i) i = Crud.delete_user db i) ∧
    ((Crud.delete_category db i).categories =
        db.categories.filter (fun x => x.id != i) ∧
      Crud.get_category (Crud.delete_category db i) i = none ∧
      (Crud.get_category db i = none → Crud.delete_category db i = db) ∧
      Crud.delete_category (Crud.delete_category db i) i =
        Crud.delete_category db i) ∧
    ((Crud.delete_book db i).books = db.books.filter (fun x => x.id != i) ∧
      Crud.get_book (Crud.delete_book db i) i = none ∧
      (Crud.get_book db i = none → Crud.delete_book db i = db) ∧
      Crud.delete_book (Crud.delete_book db i) i = Crud.delete_book db i) := by
  have hrec0 : ∀ d : DB, Crud.get_record d i = none → Crud.delete_record d i = d := by
    intro d h
    unfold Crud.delete_record
    rw [h]
  have huser0 : ∀ d : DB, Crud.get_user d i = none → Crud.delete_user d i = d := by
    intro d h
    unfold Crud.delete_user
    rw [h]
  have hcat0 : ∀ d : DB, Crud.get_category d i = none → Crud.delete_category d i = d := by
    intro d h
    unfold Crud.delete_category
    rw [h]
  have hbook0 : ∀ d : DB, Crud.get_book d i = none → Crud.delete_book d i = d := by
    intro d h
    unfold Crud.delete_book
    rw [h]
  have hrecf : (Crud.delete_record db i).records =
      db.records.filter (fun x => x.id != i) := by
    cases h : Crud.get_record db i with
    | none =>
      rw [hrec0 db h]
      exact (filter_bne_of_find_none db.records (fun x => x.id) i h).symm
    | some r =>
      have h1 : Crud.delete_record db i =
          { db with records := db.records.filter (fun x => x.id != i) } := by
        unfold Crud.delete_record
        rw [h]
      rw [h1]
  have huserf : (Crud.delete_user db i).users =
      db.users.filter (fun x => x.id != i) := by
    cases h : Crud.get_user db i with
    | none =>
      rw [huser0 db h]
      exact (filter_bne_of_find_none db.users (fun x => x.id) i h).symm
    | some r =>
      have h1 : Crud.delete_user db i =
          { db with users := db.users.filter (fun x => x.id != i),
                    user_book := db.user_book.filter (fun p => p.1 != i) } := by
        unfold Crud.delete_user
        rw [h]
      rw [h1]
  have hcatf : (Crud.delete_category db i).categories =
      db.categories.filter (fun x => x.id != i) := by
    cases h : Crud.get_category db i with
    | none =>
      rw [hcat0 db h]
      exact (filter_bne_of_find_none db.categories (fun x => x.id) i h).symm
    | some r =>
      have h1 : Crud.delete_category db i =
          { db with categories := db.categories.filter (fun x => x.id != i) } := by
        unfold Crud.delete_category
        rw [h]
      rw [h1]
  have hbookf : (Crud.delete_book db i).books =
      db.books.filter (fun x => x.id != i) := by
    cases h : Crud.get_book db i with
    | none =>
      rw [hbook0 db h]
      exact (filter_bne_of_find_none db.books (fun x => x.id) i h).symm
    | some r =>
      have h1 : Crud.delete_book db i =
          { db with books := db.books.filter (fun x => x.id != i),
                    user_book := db.user_book.filter (fun p => p.2 != i) } := by
        unfold Crud.delete_book
        rw [h]
      rw [h1]
  have hrecg : Crud.get_record (Crud.delete_record db i) i = none := by
    unfold Crud.get_record
    rw [hrecf]
    exact find_filter_bne_eq_none db.records (fun x => x.id) i
  have huserg : Crud.get_user (Crud.delete_user db i) i = none := by
    unfold Crud.get_user
    rw [huserf]
    exact find_filter_bne_eq_none db.users (fun x => x.id) i
  have hcatg : Crud.get_category (Crud.delete_category db i) i = none := by
    unfold Crud.get_category
    rw [hcatf]
    exact find_filter_bne_eq_none db.categories (fun x => x.id) i
  have hbookg : Crud.get_book (Crud.delete_book db i) i = none := by
    unfold Crud.get_book
    rw [hbookf]
    exact find_filter_bne_eq_none db.books (fun x => x.id) i
  exact ⟨⟨hrecf, hrecg, hrec0 db, hrec0 _ hrecg⟩,
    ⟨huserf, huserg, huser0 db, huser0 _ huserg⟩,
    ⟨hcatf, hcatg, hcat0 db, hcat0 _ hcatg⟩,
    ⟨hbookf, hbookg, hbook0 db, hbook0 _ hbookg⟩⟩

/-- Witness for claim C8 on a populated store: deleting record 1 leaves
exactly record 2, the deleted id is gone, and a second delete changes
nothing; likewise for user 2, category 1 and book 2; deleting the absent
id 3 is a no-op for categories and books. -/
theorem delete_idempotent_witness :
    (Crud.delete_record deleteWitnessDB 1).records =
      [⟨2, 20, none, 1, 1, 1, 1, 6⟩] ∧
    Crud.get_record (Crud.delete_record deleteWitnessDB 1) 1 = none ∧
    Crud.delete_record (Crud.delete_record deleteWitnessDB 1) 1 =
      Crud.delete_record deleteWitnessDB 1 ∧
    (Crud.delete_user deleteWitnessDB 2).users =
      [⟨1, "a@x", "al", ⟨0, (0, "pw")⟩⟩] ∧
    Crud.get_user (Crud.delete_user deleteWitnessDB 2) 2 = none ∧
    Crud.delete_user (Crud.delete_user deleteWitnessDB 2) 2 =
      Crud.delete_user deleteWitnessDB 2 ∧
    (Crud.delete_category deleteWitnessDB 1).categories =
      [⟨2, none, 5, "yingyong", "App"⟩] ∧
    Crud.get_category (Crud.delete_category deleteWitnessDB 1) 1 = none ∧
    (Crud.delete_book deleteWitnessDB 2).books = [⟨1, "default"⟩] ∧
    Crud.get_book (Crud.delete_book deleteWitnessDB 2) 2 = none ∧
    Crud.delete_category deleteWitnessDB 3 = deleteWitnessDB ∧
    Crud.delete_book deleteWitnessDB 3 = deleteWitnessDB := by
  refine ⟨?_, (delete_idempotent deleteWitnessDB 1).1.2.1,
    (delete_idempotent deleteWitnessDB 1).1.2.2.2, ?_,
    (delete_idempotent deleteWitnessDB 2).2.1.2.1,
    (delete_idempotent deleteWitnessDB 2).2.1.2.2.2, ?_,
    (delete_idempotent deleteWitnessDB 1).2.2.1.2.1, ?_,
    (delete_idempotent deleteWitnessDB 2).2.2.2.2.1,
    (delete_idempotent deleteWitnessDB 3).2.2.1.2.2.1 rfl,
    (delete_idempotent deleteWitnessDB 3).2.2.2.2.2.1 rfl⟩
  · rw [(delete_idempotent deleteWitnessDB 1).1.1]
    rfl
  · rw [(delete_idempotent deleteWitnessDB 2).2.1.1]
    rfl
  · rw [(delete_idempotent deleteWitnessDB 1).2.2.1.1]
    rfl
  · rw [(delete_idempotent deleteWitnessDB 2).2.2.2.1]
    rfl

/-- Claim C10: every record returned by `get_records` belongs to the
requested book, the page never exceeds `limit` rows, and a `skip` at or
beyond the number of matching records yields the empty list rather than an
error. -/
theorem get_records_spec (db : DB) (bid skip limit : Nat) :
    (∀ r ∈ Crud.get_records db bid skip limit, r.book_id = bid) ∧
    (Crud.get_records db bid skip limit).length ≤ limit ∧
    ((db.records.filter (fun r => r.book_id == bid)).length ≤ skip →
      Crud.get_records db bid skip limit = []) := by
  refine ⟨?_, ?_, ?_⟩
  · intro r hr
    unfold Crud.get_records at hr
    have h1 := List.mem_of_mem_take hr
    have h2 := List.mem_of_mem_drop h1
    have h3 := (List.mem_filter.mp h2).2
    simpa using h3
  · unfold Crud.get_records
    exact List.length_take_le limit _
  · intro h
    unfold Crud.get_records
    rw [List.drop_eq_nil_of_le h, List.take_nil]

/-- Witness for claim C10: on the fresh deployment there are no records of
book 1, so a page starting at offset 5 is empty. -/
theorem get_records_spec_witness :
    Crud.get_records initDB 1 5 100 = [] :=
  (get_records_spec initDB 1 5 100).2.2 (by decide)

/-- Claim C3: a token issued for subject `u` with positive ttl validates to
`u` immediately and at any time before issue-time + ttl, fails once the
clock is past issue-time + ttl, and once expired stays failed at every
later time — it is never un-expired. -/
theorem token_lifecycle (u : String) (ttl now t secret : Nat) (h : 0 < ttl) :
    jwtDecode (create_access_token u ttl now secret) secret now = .ok ⟨some u⟩ ∧
    (t < now + ttl →
      jwtDecode (create_access_token u ttl now secret) secret t = .ok ⟨some u⟩) ∧
    (now + ttl < t →
      jwtDecode (create_access_token u ttl now secret) secret t = .error .http401) ∧
    (∀ t2, now + ttl < t → t ≤ t2 →
      jwtDecode (create_access_token u ttl now secret) secret t2 = .error .http401) := by
  have hdec : ∀ s : Time,
      jwtDecode (create_access_token u ttl now secret) secret s =
        if now + ttl < s then .error .http401 else .ok ⟨some u⟩ := by
    intro s
    simp [jwtDecode, create_access_token]
  refine ⟨?_, ?_, ?_, ?_⟩
  · rw [hdec now, if_neg (by omega)]
  · intro hlt
    rw [hdec t, if_neg (by omega)]
  · intro hgt
    rw [hdec t, if_pos hgt]
  · intro t2 hgt hle
    rw [hdec t2, if_pos (by omega)]

/-- Witness for claim C3 at concrete times: a token issued at time 100 with
ttl 30 validates at time 120 and fails at time 131. -/
theorem token_lifecycle_witness :
    jwtDecode (create_access_token "admin" 30 100 7) 7 120 = .ok ⟨some "admin"⟩ ∧
    jwtDecode (create_access_token "admin" 30 100 7) 7 131 = .error .http401 :=
  ⟨(token_lifecycle "admin" 30 100 120 7 (by decide)).2.1 (by decide),
    (token_lifecycle "admin" 30 100 131 7 (by decide)).2.2.1 (by decide)⟩

/-- Claim C4: resolving the current user from a bearer token returns the
subject's user when the token is well signed under the server secret,
unexpired and carries a `sub` naming an existing user; it fails with 401
exactly when the token is malformed, its signature does not verify, it is
expired, it lacks a subject, or the subject's user no longer exists — and
in particular for any token signed under a different secret. -/
theorem get_current_user_spec (db : DB) (token : WireToken) (secret : Nat)
    (now : Time) :
    (∀ sub exp sig username user,
      token = .signed sub exp sig →
      sig = signTag secret sub exp →
      now ≤ exp →
      sub = some username →
      Crud.get_user_by_username db username = some user →
      Crud.get_current_user db token secret now = .ok user) ∧
    (Crud.get_current_user db token secret now = .error .http401 ↔
      (∃ raw, token = .malformed raw) ∨
      (∃ sub exp sig, token = .signed sub exp sig ∧ sig ≠ signTag secret sub exp) ∨
      (∃ sub exp, token = .signed sub exp (signTag secret sub exp) ∧ exp < now) ∨
      (∃ exp, token = .signed none exp (signTag secret none exp) ∧ now ≤ exp) ∨
      (∃ username exp,
        token = .signed (some username) exp (signTag secret (some username) exp) ∧
        now ≤ exp ∧ Crud.get_user_by_username db username = none)) ∧
    (∀ u2 ttl t0 secret2, secret2 ≠ secret →
      Crud.get_current_user db (create_access_token u2 ttl t0 secret2) secret now =
        .error .http401) := by
  refine ⟨?_, ⟨?_, ?_⟩, ?_⟩
  · rintro sub exp sig username user rfl rfl hle rfl huser
    unfold Crud.get_current_user
    simp [jwtDecode, Nat.not_lt.mpr hle, huser]
  · intro herr
    cases token with
    | malformed raw => exact Or.inl ⟨raw, rfl⟩
    | signed sub exp sig =>
      by_cases hsig : sig = signTag secret sub exp
      · subst hsig
        by_cases hexp : exp < now
        · exact Or.inr (Or.inr (Or.inl ⟨sub, exp, rfl, hexp⟩))
        · have hle : now ≤ exp := Nat.le_of_not_lt hexp
          cases sub with
          | none => exact Or.inr (Or.inr (Or.inr (Or.inl ⟨exp, rfl, hle⟩)))
          | some username =>
            cases huser : Crud.get_user_by_username db username with
            | none =>
              exact Or.inr (Or.inr (Or.inr (Or.inr ⟨username, exp, rfl, hle, huser⟩)))
            | some user =>
              exfalso
              have hok : Crud.get_current_user db
                  (.signed (some username) exp (signTag secret (some username) exp))
                  secret now = .ok user := by
                unfold Crud.get_current_user
                simp [jwtDecode, Nat.not_lt.mpr hle, huser]
              rw [hok] at herr
              exact Except.noConfusion herr
      · exact Or.inr (Or.inl ⟨sub, exp, sig, rfl, hsig⟩)
  · rintro (⟨raw, rfl⟩ | ⟨sub, exp, sig, rfl, hsig⟩ | ⟨sub, exp, rfl, hexp⟩ |
      ⟨exp, rfl, hle⟩ | ⟨username, exp, rfl, hle, hnone⟩)
    · rfl
    · unfold Crud.get_current_user
      simp [jwtDecode, hsig]
    · unfold Crud.get_current_user
      simp [jwtDecode, hexp]
    · unfold Crud.get_current_user
      simp [jwtDecode, Nat.not_lt.mpr hle]
    · unfold Crud.get_current_user
      simp [jwtDecode, Nat.not_lt.mpr hle, hnone]
  · intro u2 ttl t0 secret2 hne
    have hsig : signTag secret2 (some u2) (t0 + ttl) ≠
        signTag secret (some u2) (t0 + ttl) :=
      fun hc => hne (congrArg Prod.fst hc)
    unfold Crud.get_current_user
    simp [create_access_token, jwtDecode, hsig]

/-- Witness for claim C4: on a store holding the seeded admin user, a token
issued for `admin` under the server secret and still unexpired resolves to
the admin row. -/
theorem get_current_user_spec_witness :
    Crud.get_current_user
      ⟨[⟨1, "admin@126.com", "admin", ⟨0, (0, "admin")⟩⟩], [], [], [], [], 2, 1, 1, 1⟩
      (create_access_token "admin" 30 100 7) 7 110 =
      .ok ⟨1, "admin@126.com", "admin", ⟨0, (0, "admin")⟩⟩ :=
  (get_current_user_spec
      ⟨[⟨1, "admin@126.com", "admin", ⟨0, (0, "admin")⟩⟩], [], [], [], [], 2, 1, 1, 1⟩
      (create_access_token "admin" 30 100 7) 7 110).1
    (some "admin") 130 (signTag 7 (some "admin") 130) "admin"
    ⟨1, "admin@126.com", "admin", ⟨0, (0, "admin")⟩⟩
    (by decide) rfl (by decide) rfl (by decide)

/-- Counterexample to claim C5 as stated: in a store whose only user is
(id 1, email `alice@x.com`, username `bob`), the email `carol@x.com` is
fresh, yet creating (email `carol@x.com`, username `bob`) does not succeed —
the UNIQUE constraint on `users.username` raises `IntegrityError` and the
store is unchanged. -/
theorem create_user_fresh_email_counterexample :
    Crud.get_user_by_email
      ⟨[⟨1, "alice@x.com", "bob", ⟨0, (0, "pw")⟩⟩], [], [], [], [], 2, 1, 1, 1⟩
      "carol@x.com" = none ∧
    Main.create_user
      ⟨[⟨1, "alice@x.com", "bob", ⟨0, (0, "pw")⟩⟩], [], [], [], [], 2, 1, 1, 1⟩
      ⟨"carol@x.com", "bob", "pw2"⟩ 1 =
      (⟨[⟨1, "alice@x.com", "bob", ⟨0, (0, "pw")⟩⟩], [], [], [], [], 2, 1, 1, 1⟩,
        .error .integrityError) :=
  ⟨rfl, rfl⟩

/-- Claim C5 (amended): creating a user whose email is already present
fails with the 400 duplicate-email error and adds no user; creating a user
with a fresh email *and a username not already taken* succeeds, and the
created user is then retrievable both by its new id and by its email.  The
`hid` hypothesis is autoincrement freshness: no stored row already uses the
next id. -/
theorem create_user_fresh_spec (db : DB) (u : UserCreate) (salt : Nat)
    (hid : ∀ x ∈ db.users, x.id ≠ db.next_user_id) :
    (∀ x, Crud.get_user_by_email db u.email = some x →
      Main.create_user db u salt = (db, .error .http400)) ∧
    (Crud.get_user_by_email db u.email = none →
     (∀ x ∈ db.users, x.username ≠ u.username) →
      Main.create_user db u salt =
        ({ db with
            users := db.users ++
              [⟨db.next_user_id, u.email, u.username,
                get_password_hash u.password salt⟩],
            next_user_id := db.next_user_id + 1 },
          .ok ⟨db.next_user_id, u.email, u.username,
            get_password_hash u.password salt⟩) ∧
      Crud.get_user (Main.create_user db u salt).1 db.next_user_id =
        some ⟨db.next_user_id, u.email, u.username,
          get_password_hash u.password salt⟩ ∧
      Crud.get_user_by_email (Main.create_user db u salt).1 u.email =
        some ⟨db.next_user_id, u.email, u.username,
          get_password_hash u.password salt⟩) := by
  constructor
  · intro x hx
    unfold Main.create_user
    rw [hx]
  · intro hmail huname
    have hemail : ∀ x ∈ db.users, x.email ≠ u.email := by
      intro x hxmem
      have hfail := List.find?_eq_none.mp hmail x hxmem
      simpa using hfail
    have hnodup : ¬ ∃ x ∈ db.users, x.email = u.email ∨ x.username = u.username := by
      rintro ⟨x, hxmem, hor⟩
      cases hor with
      | inl hor => exact hemail x hxmem hor
      | inr hor => exact huname x hxmem hor
    have hmain : Main.create_user db u salt =
        ({ db with
            users := db.users ++
              [⟨db.next_user_id, u.email, u.username,
                get_password_hash u.password salt⟩],
            next_user_id := db.next_user_id + 1 },
          .ok ⟨db.next_user_id, u.email, u.username,
            get_password_hash u.password salt⟩) := by
      unfold Main.create_user
      rw [hmail]
      unfold Crud.create_user
      rw [if_neg hnodup]
    refine ⟨hmain, ?_, ?_⟩
    · rw [hmain]
      unfold Crud.get_user
      exact find_append_singleton _ _ _
        (fun a ha => by simpa using hid a ha) (by simp)
    · rw [hmain]
      unfold Crud.get_user_by_email
      exact find_append_singleton _ _ _
        (fun a ha => by simpa using hemail a ha) (by simp)

/-- Witness for claim C5 (amended) at the fresh deployment: creating the
first user succeeds and the row is retrievable by id 1 and by email. -/
theorem create_user_fresh_spec_witness :
    Main.create_user initDB ⟨"a@x", "al", "pw"⟩ 0 =
      ({ initDB with
          users := initDB.users ++
            [⟨initDB.next_user_id, "a@x", "al", get_password_hash "pw" 0⟩],
          next_user_id := initDB.next_user_id + 1 },
        .ok ⟨initDB.next_user_id, "a@x", "al", get_password_hash "pw" 0⟩) ∧
    Crud.get_user (Main.create_user initDB ⟨"a@x", "al", "pw"⟩ 0).1
        initDB.next_user_id =
      some ⟨initDB.next_user_id, "a@x", "al", get_password_hash "pw" 0⟩ ∧
    Crud.get_user_by_email (Main.create_user initDB ⟨"a@x", "al", "pw"⟩ 0).1
        "a@x" =
      some ⟨initDB.next_user_id, "a@x", "al", get_password_hash "pw" 0⟩ :=
  (create_user_fresh_spec initDB ⟨"a@x", "al", "pw"⟩ 0
      (by simp [initDB])).2 rfl (by simp [initDB])

/-- Claim C6: in every reachable store state no two users share an email
and no two users share a username, because the commit of `create_user`
rejects — with `IntegrityError` and no write — any request duplicating
either the email or the username of a stored user. -/
theorem user_uniqueness_invariant (db0 : DB) (u : UserCreate) (salt : Nat)
    (db : DB)
    (hdup : ∃ x ∈ db0.users, x.email = u.email ∨ x.username = u.username)
    (hreach : Reachable db) :
    Crud.create_user db0 u salt = (db0, .error .integrityError) ∧
    UsersUnique db := by
  refine ⟨?_, (reachable_unique hreach).1⟩
  unfold Crud.create_user
  rw [if_pos hdup]

/-- Witness for claim C6: a request repeating the stored username `al` is
rejected with the store unchanged, and the fresh deployment satisfies the
uniqueness invariant. -/
theorem user_uniqueness_invariant_witness :
    Crud.create_user
      ⟨[⟨1, "a@x", "al", ⟨0, (0, "pw")⟩⟩], [], [], [], [], 2, 1, 1, 1⟩
      ⟨"b@x", "al", "q"⟩ 0 =
      (⟨[⟨1, "a@x", "al", ⟨0, (0, "pw")⟩⟩], [], [], [], [], 2, 1, 1, 1⟩,
        .error .integrityError) ∧
    UsersUnique initDB :=
  user_uniqueness_invariant
    ⟨[⟨1, "a@x", "al", ⟨0, (0, "pw")⟩⟩], [], [], [], [], 2, 1, 1, 1⟩
    ⟨"b@x", "al", "q"⟩ 0 initDB
    ⟨⟨1, "a@x", "al", ⟨0, (0, "pw")⟩⟩, by simp, Or.inr rfl⟩ Reachable.init

/-- Claim C9: `create_user_book` appends the membership pair when it is
new, fails with the composite-primary-key `IntegrityError` — leaving the
store unchanged — when the pair already exists, and consequently the
membership pairs are distinct in every reachable store state. -/
theorem membership_pairs_unique (db0 : DB) (ub : UserBookCreate) (db : DB)
    (hreach : Reachable db) :
    ((ub.user_id, ub.book_id) ∉ db0.user_book →
      Crud.create_user_book db0 ub =
        ({ db0 with user_book := db0.user_book ++ [(ub.user_id, ub.book_id)] },
          .ok ub)) ∧
    ((ub.user_id, ub.book_id) ∈ db0.user_book →
      Crud.create_user_book db0 ub = (db0, .error .integrityError)) ∧
    MembershipUnique db := by
  refine ⟨?_, ?_, (reachable_unique hreach).2⟩
  · intro h
    unfold Crud.create_user_book
    rw [if_neg h]
  · intro h
    unfold Crud.create_user_book
    rw [if_pos h]

/-- Witness for claim C9: inserting (1, 1) into the fresh deployment
appends it; inserting (1, 1) when it is already stored raises
`IntegrityError` and changes nothing; the fresh deployment satisfies the
pair-uniqueness invariant. -/
theorem membership_pairs_unique_witness :
    Crud.create_user_book initDB ⟨1, 1⟩ =
      ({ initDB with user_book := initDB.user_book ++ [(1, 1)] }, .ok ⟨1, 1⟩) ∧
    Crud.create_user_book ⟨[], [], [], [], [(1, 1)], 1, 1, 1, 1⟩ ⟨1, 1⟩ =
      (⟨[], [], [], [], [(1, 1)], 1, 1, 1, 1⟩, .error .integrityError) ∧
    MembershipUnique initDB :=
  ⟨(membership_pairs_unique initDB ⟨1, 1⟩ initDB Reachable.init).1
      (by simp [initDB]),
    (membership_pairs_unique ⟨[], [], [], [], [(1, 1)], 1, 1, 1, 1⟩ ⟨1, 1⟩ initDB
      Reachable.init).2.1 (by simp),
    (membership_pairs_unique initDB ⟨1, 1⟩ initDB Reachable.init).2.2⟩

end Costday
